import Mathlib

/-
Verification of the network scanner (src/scripts/python/network-scanner.py)
against its natural-language specification.

The script is embedded shallowly:
* `Json` models the values produced by `json.load`; file reading plus JSON
  decoding is an oracle `String → Option Json` (`none` = any exception caught
  by the bare `except:` around `open`/`json.load`).
* Python `set` of ports becomes `Finset Int`, `sorted` of a port set becomes
  `Finset.sort (· ≤ ·)`, and `sorted` of a string list becomes
  `List.insertionSort (· ≤ ·)` (Python `sorted` is a stable comparison sort;
  any stable sort agrees with it elementwise, and here elements with equal
  keys are identical strings, so sortedness plus permutation pins the output).
* Threading in `scan_host_ports` is modelled by the batch structure the
  dispatch loop creates: threads are started one at a time and, as soon as
  `THREADS` are outstanding, all of them are joined before any further thread
  starts, so the set of simultaneously live probe attempts is always a subset
  of the current batch.
* `socket` behaviour is an oracle `probe : Int → ProbeOutcome` giving, for
  each port, what the single `connect_ex` attempt did.
-/

namespace NetScanner

/-- Configuration constant `THREADS = 100` from the script. -/
def THREADS : Nat := 100

/-- Values as produced by `json.load`.  Numbers are modelled as integers:
    every value the scanner itself persists (port numbers) is integral, and no
    theorem below touches fractional numbers. -/
inductive Json where
  | null
  | bool (b : Bool)
  | num (n : Int)
  | str (s : String)
  | arr (elems : List Json)
  | obj (fields : List (String × Json))

/-- The dictionary built by `scan_host_ports` for one host:
    `{"ip": ..., "open_ports": sorted(list(open_ports)), "scanned_at": ...}`. -/
structure ScanRecord where
  ip : String
  open_ports : List Int
  scanned_at : String
deriving DecidableEq, Repr

/-- The dictionary appended by `compare_with_baseline` for one changed host. -/
structure ChangeRecord where
  ip : String
  added_ports : List Int
  removed_ports : List Int
  detected_at : String
deriving DecidableEq, Repr

/-! ## Python primitive operations

Python `sorted` is modelled by `List.insertionSort`: both are stable
comparison sorts, and a stable sort is determined elementwise by the
comparison, so they agree on every input.  Python string comparison is
lexicographic by code point, spelled out here so that it computes. -/

/-- Python `<` on strings as lists of characters: strict lexicographic order
    by code point. -/
def strLtb : List Char → List Char → Bool
  | [], [] => false
  | [], _ :: _ => true
  | _ :: _, [] => false
  | a :: as, b :: bs => if a < b then true else if b < a then false else strLtb as bs

/-- Python `<=` on strings: equal, or strictly smaller lexicographically. -/
def pyLe (a b : String) : Prop :=
  (a == b || strLtb a.data b.data) = true

instance : DecidableRel pyLe :=
  fun a b => inferInstanceAs (Decidable ((a == b || strLtb a.data b.data) = true))

/-- Ascending sort of a multiset of integers; well defined because the sorted
    arrangement of a list is invariant under permutation. -/
def sortMultiset (m : Multiset Int) : List Int :=
  Quot.liftOn m (List.insertionSort (· ≤ ·)) (fun _ _ h =>
    List.eq_of_perm_of_sorted
      ((List.perm_insertionSort _ _).trans (h.trans (List.perm_insertionSort _ _).symm))
      (List.sorted_insertionSort _ _) (List.sorted_insertionSort _ _))

/-- Python `sorted(list(s))` for a set of ports: the elements of the set in
    ascending order. -/
def sortFinset (s : Finset Int) : List Int :=
  sortMultiset s.val

/-! ## Step 1: discovery (`discover_hosts`) -/

/-- The script runs `sorted([recv.psrc for _, recv in answered])`: the replies
    are IP address *strings* and Python sorts them lexicographically by code
    point (`pyLe`).  `answered` is the list of reply source addresses in
    arrival order. -/
def discover_hosts (answered : List String) : List String :=
  List.insertionSort pyLe answered

/-! ## Step 2: port scan (`scan_port`, `scan_host_ports`) -/

/-- Outcome of the single `connect_ex` attempt of `scan_port` on one port:
    either `connect_ex` returned an error indicator (`0` = success, nonzero =
    refused/unreachable), or some socket call raised an exception (timeout,
    resolution failure, ...), which the bare `except:` swallows. -/
inductive ProbeOutcome where
  | result (code : Int)
  | raised
deriving DecidableEq, Repr

/-- Effect of one `scan_port` call on the shared `open_ports` accumulator:
    the port is added exactly when `connect_ex` returned `0`; every other
    outcome (nonzero indicator or exception) leaves the accumulator unchanged
    and surfaces nothing. -/
def scan_port (outcome : ProbeOutcome) (open_ports : Finset Int) (port : Int) :
    Finset Int :=
  match outcome with
  | .result 0 => insert port open_ports
  | .result _ => open_ports
  | .raised => open_ports

/-- The batch structure of the thread-dispatch loop in `scan_host_ports`:
    threads are appended one at a time and, once `limit` are outstanding, all
    of them are joined and the list reset; the trailing loop joins whatever
    remains.  `cur` is the (reversed) list of currently outstanding attempts. -/
def batchLoop (limit : Nat) (cur : List Int) : List Int → List (List Int)
  | [] => if cur.isEmpty then [] else [cur.reverse]
  | p :: ps =>
    let cur2 := p :: cur
    if limit ≤ cur2.length then
      cur2.reverse :: batchLoop limit [] ps
    else
      batchLoop limit cur2 ps

/-- Batches of probe attempts dispatched by `scan_host_ports` for a port
    list: each batch is fully joined before the next thread starts. -/
def scanBatches (ports : List Int) : List (List Int) :=
  batchLoop THREADS [] ports

/-- Final accumulator of `scan_host_ports`: each port contributes through its
    own `scan_port` call; the accumulator is a set, so the (unspecified)
    completion order does not matter and a left fold captures it. -/
def gatherOpen (probe : Int → ProbeOutcome) (ports : List Int) : Finset Int :=
  ports.foldl (fun s p => scan_port (probe p) s p) ∅

/-- Return value of `scan_host_ports`: the record for one host, with the
    accumulated open ports sorted ascending.  `now` is the
    `datetime.now().isoformat()` timestamp taken after all joins. -/
def scan_host_ports (ip : String) (ports : List Int)
    (probe : Int → ProbeOutcome) (now : String) : ScanRecord :=
  { ip := ip
    open_ports := sortFinset (gatherOpen probe ports)
    scanned_at := now }

/-! ## Step 4: baseline comparison (`compare_with_baseline`)

The bare `except:` covers only `open(baseline_path)` and `json.load(f)`.
The dictionary comprehension `{h['ip']: set(h['open_ports']) for h in old}`
runs *outside* the `try`, so a baseline that decodes as JSON but does not
have the expected shape raises an uncaught exception. -/

/-- Python iteration over a JSON-decoded value, as used by `for h in old` and
    `set(h['open_ports'])`: lists yield their elements, dicts their keys,
    strings their characters; other values raise `TypeError`. -/
def pyIter : Json → Except String (List Json)
  | .arr xs => .ok xs
  | .obj fs => .ok (fs.map (fun f => .str f.1))
  | .str s => .ok (s.data.map (fun c => .str (String.mk [c])))
  | _ => .error "TypeError: object is not iterable"

/-- Lookup in a decoded JSON object; `json.load` keeps the last binding of a
    duplicated key, so the last matching field wins. -/
def lookupField (fs : List (String × Json)) (k : String) : Option Json :=
  ((fs.filter (fun f => f.1 == k)).getLast?).map (fun f => f.2)

/-- Python `h[k]` for a string key `k` on a JSON-decoded value: only dicts
    support string subscripts (`KeyError` when the key is missing); lists and
    strings demand integer indices and everything else is not subscriptable,
    all raising `TypeError`. -/
def getItem (h : Json) (k : String) : Except String Json :=
  match h with
  | .obj fs =>
    match lookupField fs k with
    | some v => .ok v
    | none => .error ("KeyError: " ++ k)
  | .arr _ => .error "TypeError: list indices must be integers"
  | .str _ => .error "TypeError: string indices must be integers"
  | _ => .error "TypeError: object is not subscriptable"

/-- Left-to-right traversal where the first raised exception wins, as in a
    Python comprehension. -/
def mapExcept (f : α → Except String β) : List α → Except String (List β)
  | [] => .ok []
  | a :: as => do
    let b ← f a
    let bs ← mapExcept f as
    .ok (b :: bs)

/-- Value of one element of `h['open_ports']` inside `set(...)`.  Entries are
    required to be integral numbers: the persisted shape stores ports as an
    integer list, and that is the only shape any theorem below exercises (a
    CPython set would also accept other hashable scalars and defer any
    failure; such baselines are outside the modelled state space). -/
def portEntry (j : Json) : Except String Int :=
  match j with
  | .num n => .ok n
  | _ => .error "TypeError: unsupported port entry"

/-- Evaluation of `set(h['open_ports'])` for one baseline entry. -/
def extractPortSet (v : Json) : Except String (Finset Int) := do
  let xs ← pyIter v
  let ns ← mapExcept portEntry xs
  .ok ns.toFinset

/-- Evaluation of one entry of the dictionary comprehension: the key
    `h['ip']` then the value `set(h['open_ports'])`. -/
def oldMapEntry (h : Json) : Except String (Json × Finset Int) := do
  let k ← getItem h "ip"
  let ps ← getItem h "open_ports"
  let s ← extractPortSet ps
  .ok (k, s)

/-- The dictionary comprehension `{h['ip']: set(h['open_ports']) for h in
    old}`, as an association list in insertion order (a later duplicate key
    overwrites an earlier one, i.e. the *last* binding is visible). -/
def buildOldMap (old : Json) : Except String (List (Json × Finset Int)) := do
  let hs ← pyIter old
  mapExcept oldMapEntry hs

/-- Python equality between a dict key (an arbitrary JSON value) and the
    string probe `ip`: `str == str` compares contents, `str == anything else`
    is `False` (Python never equates a string with a non-string). -/
def isStrKey (j : Json) (ip : String) : Bool :=
  match j with
  | .str s => s == ip
  | _ => false

/-- Python `old_map.get(ip, set())`: the last binding of the key `ip` (keys
    are JSON values; the probe key is always the string `ip`), or the empty
    set when absent. -/
def oldMapGet (m : List (Json × Finset Int)) (ip : String) : Finset Int :=
  (((m.filter (fun e => isStrKey e.1 ip)).getLast?).map (fun e => e.2)).getD ∅

/-- Body of the `for host in current` loop: `added = new_ports - old_ports`,
    `removed = old_ports - new_ports`, and a change dictionary is appended
    exactly when `added or removed` is truthy, i.e. one of them is nonempty. -/
def diffHost (m : List (Json × Finset Int)) (host : ScanRecord) :
    Option ChangeRecord :=
  let new_ports := host.open_ports.toFinset
  let old_ports := oldMapGet m host.ip
  let added := new_ports \ old_ports
  let removed := old_ports \ new_ports
  if added = ∅ ∧ removed = ∅ then none
  else
    some { ip := host.ip
           added_ports := sortFinset added
           removed_ports := sortFinset removed
           detected_at := host.scanned_at }

/-- The comparison loop of `compare_with_baseline`, after `old_map` has been
    built: one pass over `current`, in order. -/
def compareLoop (current : List ScanRecord) (m : List (Json × Finset Int)) :
    List ChangeRecord :=
  current.filterMap (diffHost m)

/-- Whole of `compare_with_baseline`.  `baseline_path` is `None` or the
    `--baseline` string (Python falsiness also treats `""` as absent);
    `loadBaseline` is the oracle for `open` + `json.load` (`none` = exception,
    caught and turned into `[]`).  An `Except.error` models the uncaught
    exception raised while building `old_map` from an unexpectedly shaped
    baseline. -/
def compare_with_baseline (current : List ScanRecord)
    (baseline_path : Option String) (loadBaseline : String → Option Json) :
    Except String (List ChangeRecord) :=
  match baseline_path with
  | none => .ok []
  | some p =>
    if p = "" then .ok []
    else
      match loadBaseline p with
      | none => .ok []
      | some old => do
        let m ← buildOldMap old
        .ok (compareLoop current m)

/-- JSON shape `save_json` persists for one scan record. -/
def encodeRecord (r : ScanRecord) : Json :=
  .obj [("ip", .str r.ip),
        ("open_ports", .arr (r.open_ports.map .num)),
        ("scanned_at", .str r.scanned_at)]

/-- JSON shape `save_json` persists for a whole result set. -/
def encodeResults (rs : List ScanRecord) : Json :=
  .arr (rs.map encodeRecord)

/-- The `old_map` association list that a well-shaped baseline (a persisted
    result set) produces. -/
def oldMapOfRecords (old : List ScanRecord) : List (Json × Finset Int) :=
  old.map (fun h => (Json.str h.ip, h.open_ports.toFinset))

/-! ## Spec-side formalisations (used only to compare against the code) -/

/-- Formalisation of the spec's words for the Baseline Differ: the baseline
    port set of a host is "the ports of that host in the baseline, the empty
    set if the host is absent" (the spec presumes one record per host, so the
    first match is the host's record). -/
def specBaselinePorts (baseline : List ScanRecord) (ip : String) : Finset Int :=
  ((baseline.find? (fun h => h.ip == ip)).map (fun h => h.open_ports.toFinset)).getD ∅

/-- Formalisation of the spec's diff description, word for word: for each host
    in `current`, `added = current_ports − baseline_ports` and
    `removed = baseline_ports − current_ports`, a ChangeRecord emitted iff one
    is non-empty, `detected_at` copied from the current ScanRecord, output in
    the order of `current`. -/
def specDiff (current baseline : List ScanRecord) : List ChangeRecord :=
  current.filterMap (fun host =>
    let added := host.open_ports.toFinset \ specBaselinePorts baseline host.ip
    let removed := specBaselinePorts baseline host.ip \ host.open_ports.toFinset
    if added = ∅ ∧ removed = ∅ then none
    else
      some { ip := host.ip
             added_ports := sortFinset added
             removed_ports := sortFinset removed
             detected_at := host.scanned_at })

/-- Splitting a character list at the dots, for reading a dotted-decimal
    IPv4 string. -/
def splitDotsAux (cur : List Char) : List Char → List (List Char)
  | [] => [cur.reverse]
  | c :: cs =>
    if c = '.' then cur.reverse :: splitDotsAux [] cs
    else splitDotsAux (c :: cur) cs

/-- Value of a non-empty decimal digit string. -/
def decDigits? (cs : List Char) : Option Nat :=
  match cs with
  | [] => none
  | _ =>
    cs.foldl
      (fun acc c =>
        acc.bind (fun n =>
          if 48 ≤ c.toNat ∧ c.toNat ≤ 57 then some (n * 10 + (c.toNat - 48))
          else none))
      (some 0)

/-- Numeric value of a dotted-decimal IPv4 string, for stating the claimed
    "ordering by numeric IPv4 address value". -/
def ipValue (s : String) : Option Nat :=
  match (splitDotsAux [] s.data).mapM decDigits? with
  | some [a, b, c, d] =>
    if a < 256 ∧ b < 256 ∧ c < 256 ∧ d < 256 then
      some (((a * 256 + b) * 256 + c) * 256 + d)
    else none
  | _ => none

/-- Comparison of two IPv4 strings by numeric address value (valid dotted
    quads compare by their 32-bit value). -/
def ipNumLe (a b : String) : Prop :=
  (ipValue a).getD 0 ≤ (ipValue b).getD 0

instance : DecidableRel ipNumLe :=
  fun a b => inferInstanceAs (Decidable ((ipValue a).getD 0 ≤ (ipValue b).getD 0))

/-! ## Main orchestration (`main`) -/

/-- Observable outcome of `main` after host discovery.  `noHosts` is the
    early `return` after printing the `[!] No live hosts found.` advisory:
    the process exits normally (exit code 0) with no result records and no
    exception.  `completed` carries the persisted result set and the computed
    change set.  `crashedAfterSave` is the state when `compare_with_baseline`
    raises: `save_json`/`save_csv` already ran, so the results are on disk,
    but the process dies with a traceback. -/
inductive MainOutcome where
  | noHosts
  | completed (results : List ScanRecord) (changes : List ChangeRecord)
  | crashedAfterSave (results : List ScanRecord) (err : String)
deriving DecidableEq, Repr

/-- The per-host scan loop of `main`: one `scan_host_ports` call per
    discovered host, in discovery order.  `probe` and `now` are the socket
    and clock oracles, indexed by host. -/
def scanResults (live_hosts : List String) (ports : List Int)
    (probe : String → Int → ProbeOutcome) (now : String → String) :
    List ScanRecord :=
  live_hosts.map (fun ip => scan_host_ports ip ports (probe ip) (now ip))

/-- Shallow embedding of `main` from discovery onwards: discover, bail out on
    zero hosts, scan every host, save, then compare against the baseline. -/
def mainRun (answered : List String) (ports : List Int)
    (probe : String → Int → ProbeOutcome) (now : String → String)
    (baseline_path : Option String) (loadBaseline : String → Option Json) :
    MainOutcome :=
  let live_hosts := discover_hosts answered
  if live_hosts.isEmpty then .noHosts
  else
    let results := scanResults live_hosts ports probe now
    match compare_with_baseline results baseline_path loadBaseline with
    | .ok changes => .completed results changes
    | .error e => .crashedAfterSave results e

/-! ## Order properties of the Python string comparison -/

theorem strLtb_trichotomy :
    ∀ as bs : List Char, strLtb as bs = true ∨ as = bs ∨ strLtb bs as = true := by
  intro as
  induction as with
  | nil =>
    intro bs
    cases bs with
    | nil => right; left; rfl
    | cons b bs => left; rfl
  | cons a as ih =>
    intro bs
    cases bs with
    | nil => right; right; rfl
    | cons b bs =>
      rcases lt_trichotomy a b with h | h | h
      · left; simp [strLtb, h]
      · subst h
        rcases ih bs with h2 | h2 | h2
        · left; simp [strLtb, lt_irrefl, h2]
        · right; left; rw [h2]
        · right; right; simp [strLtb, lt_irrefl, h2]
      · right; right; simp [strLtb, h, lt_asymm h]

theorem strLtb_asymm :
    ∀ as bs : List Char, strLtb as bs = true → strLtb bs as = false := by
  intro as
  induction as with
  | nil =>
    intro bs h
    cases bs with
    | nil => rfl
    | cons b bs => rfl
  | cons a as ih =>
    intro bs h
    cases bs with
    | nil => cases h
    | cons b bs =>
      rcases lt_trichotomy a b with hab | hab | hab
      · simp [strLtb, hab, lt_asymm hab]
      · subst hab
        simp only [strLtb, lt_irrefl, if_false] at h ⊢
        exact ih bs h
      · simp [strLtb, hab, lt_asymm hab] at h

theorem strLtb_trans :
    ∀ as bs cs : List Char, strLtb as bs = true → strLtb bs cs = true →
      strLtb as cs = true := by
  intro as
  induction as with
  | nil =>
    intro bs cs hab hbc
    cases cs with
    | nil =>
      cases bs with
      | nil => cases hab
      | cons b bs => cases hbc
    | cons c cs => rfl
  | cons a as ih =>
    intro bs cs hab hbc
    cases bs with
    | nil => cases hab
    | cons b bs =>
      cases cs with
      | nil => cases hbc
      | cons c cs =>
        rcases lt_trichotomy a b with h1 | h1 | h1
        · rcases lt_trichotomy b c with h2 | h2 | h2
          · simp [strLtb, lt_trans h1 h2]
          · subst h2; simp [strLtb, h1]
          · simp [strLtb, h2, lt_asymm h2] at hbc
        · subst h1
          rcases lt_trichotomy a c with h2 | h2 | h2
          · simp [strLtb, h2]
          · subst h2
            simp only [strLtb, lt_irrefl, if_false] at hab hbc ⊢
            exact ih bs cs hab hbc
          · simp [strLtb, h2, lt_asymm h2] at hbc
        · simp [strLtb, h1, lt_asymm h1] at hab

theorem pyLe_iff (a b : String) :
    pyLe a b ↔ a = b ∨ strLtb a.data b.data = true := by
  unfold pyLe
  rw [Bool.or_eq_true, beq_iff_eq]

theorem string_eq_of_data_eq {a b : String} (h : a.data = b.data) : a = b :=
  congrArg String.mk h

instance : IsTotal String pyLe := by
  refine ⟨fun a b => ?_⟩
  rcases strLtb_trichotomy a.data b.data with h | h | h
  · exact Or.inl ((pyLe_iff a b).mpr (Or.inr h))
  · exact Or.inl ((pyLe_iff a b).mpr (Or.inl (string_eq_of_data_eq h)))
  · exact Or.inr ((pyLe_iff b a).mpr (Or.inr h))

instance : IsTrans String pyLe := by
  refine ⟨fun a b c hab hbc => ?_⟩
  rw [pyLe_iff] at hab hbc ⊢
  rcases hab with rfl | hab
  · exact hbc
  · rcases hbc with rfl | hbc
    · exact Or.inr hab
    · exact Or.inr (strLtb_trans _ _ _ hab hbc)

instance : IsAntisymm String pyLe := by
  refine ⟨fun a b hab hba => ?_⟩
  rw [pyLe_iff] at hab hba
  rcases hab with rfl | hab
  · rfl
  · rcases hba with rfl | hba
    · rfl
    · have h := strLtb_asymm _ _ hab
      rw [hba] at h
      cases h

/-! ## Properties of the port-set sort -/

theorem mem_sortMultiset (m : Multiset Int) (p : Int) :
    p ∈ sortMultiset m ↔ p ∈ m := by
  refine Quot.inductionOn m (fun l => ?_)
  exact (List.perm_insertionSort (· ≤ ·) l).mem_iff

theorem mem_sortFinset (s : Finset Int) (p : Int) :
    p ∈ sortFinset s ↔ p ∈ s := by
  rw [sortFinset, mem_sortMultiset]
  rfl

theorem sortMultiset_sorted (m : Multiset Int) :
    List.Sorted (· ≤ ·) (sortMultiset m) := by
  refine Quot.inductionOn m (fun l => ?_)
  exact List.sorted_insertionSort _ l

theorem sortMultiset_coe (m : Multiset Int) :
    (sortMultiset m : Multiset Int) = m := by
  refine Quot.inductionOn m (fun l => ?_)
  exact Quot.sound (List.perm_insertionSort _ l)

/-- Sanity check: the bespoke computable sort agrees with Mathlib's
    `Finset.sort`. -/
theorem sortFinset_eq_sort (s : Finset Int) :
    sortFinset s = Finset.sort (· ≤ ·) s := by
  apply List.eq_of_perm_of_sorted (r := (· ≤ ·))
  · rw [← Multiset.coe_eq_coe, sortFinset, sortMultiset_coe, Finset.sort_eq]
  · exact sortMultiset_sorted s.val
  · exact Finset.sort_sorted _ s

/-! ## The baseline dictionary versus the spec's per-host lookup -/

theorem oldMapOfRecords_cons (a : ScanRecord) (t : List ScanRecord) :
    oldMapOfRecords (a :: t) =
      (Json.str a.ip, a.open_ports.toFinset) :: oldMapOfRecords t := rfl

theorem filter_oldMapOfRecords_eq_nil (t : List ScanRecord) (ip : String)
    (h : ∀ h2 ∈ t, h2.ip ≠ ip) :
    List.filter (fun e => isStrKey e.1 ip) (oldMapOfRecords t) = [] := by
  induction t with
  | nil => rfl
  | cons a t ih =>
    rw [oldMapOfRecords_cons, List.filter_cons]
    have ha : isStrKey (Json.str a.ip) ip = false := by
      simp only [isStrKey, beq_eq_false_iff_ne, ne_eq]
      exact h a (List.mem_cons_self a t)
    rw [if_neg (by simp [ha])]
    exact ih (fun h2 hm => h h2 (List.mem_cons_of_mem a hm))

theorem oldMapGet_eq_specBaselinePorts (baseline : List ScanRecord) (ip : String)
    (hnd : (baseline.map (fun h => h.ip)).Nodup) :
    oldMapGet (oldMapOfRecords baseline) ip = specBaselinePorts baseline ip := by
  induction baseline with
  | nil => rfl
  | cons a t ih =>
    rw [List.map_cons, List.nodup_cons] at hnd
    by_cases hip : a.ip = ip
    · have hfil : List.filter (fun e => isStrKey e.1 ip) (oldMapOfRecords t) = [] := by
        refine filter_oldMapOfRecords_eq_nil t ip (fun h2 hm heq => ?_)
        exact hnd.1 (hip ▸ heq ▸ List.mem_map_of_mem (fun h => h.ip) hm)
      unfold oldMapGet specBaselinePorts
      rw [oldMapOfRecords_cons, List.filter_cons,
        if_pos (by simp [isStrKey, hip]), hfil,
        List.find?_cons_of_pos _ (by simp [hip])]
      rfl
    · unfold oldMapGet specBaselinePorts
      rw [oldMapOfRecords_cons, List.filter_cons,
        if_neg (by simp [isStrKey, hip]),
        List.find?_cons_of_neg _ (by simp [hip])]
      exact ih hnd.2

theorem specBaselinePorts_self (r : List ScanRecord) (host : ScanRecord)
    (hmem : host ∈ r) (hnd : (r.map (fun h => h.ip)).Nodup) :
    specBaselinePorts r host.ip = host.open_ports.toFinset := by
  induction r with
  | nil => cases hmem
  | cons a t ih =>
    rw [List.map_cons, List.nodup_cons] at hnd
    rcases List.mem_cons.mp hmem with rfl | hmem2
    · unfold specBaselinePorts
      rw [List.find?_cons_of_pos _ (by simp)]
      rfl
    · have hne : a.ip ≠ host.ip := fun heq =>
        hnd.1 (heq ▸ List.mem_map_of_mem (fun h => h.ip) hmem2)
      unfold specBaselinePorts
      rw [List.find?_cons_of_neg _ (by simp [hne])]
      exact ih hmem2 hnd.2

/-- Unfolding of `diffHost` without local bindings. -/
theorem diffHost_eq (m : List (Json × Finset Int)) (host : ScanRecord) :
    diffHost m host =
      if host.open_ports.toFinset \ oldMapGet m host.ip = ∅ ∧
          oldMapGet m host.ip \ host.open_ports.toFinset = ∅ then none
      else
        some { ip := host.ip
               added_ports :=
                 sortFinset (host.open_ports.toFinset \ oldMapGet m host.ip)
               removed_ports :=
                 sortFinset (oldMapGet m host.ip \ host.open_ports.toFinset)
               detected_at := host.scanned_at } := rfl

/-! ## The probe accumulator -/

theorem mem_foldl_scan_port (probe : Int → ProbeOutcome) (ports : List Int)
    (s : Finset Int) (p : Int) :
    p ∈ ports.foldl (fun s q => scan_port (probe q) s q) s ↔
      p ∈ s ∨ (p ∈ ports ∧ probe p = .result 0) := by
  induction ports generalizing s with
  | nil => simp
  | cons q t ih =>
    rw [List.foldl_cons, ih]
    cases hq : probe q with
    | result code =>
      by_cases hc : code = 0
      · subst hc
        simp only [scan_port, if_pos rfl, Finset.mem_insert, List.mem_cons]
        constructor
        · rintro ((rfl | hs) | ht)
          · exact Or.inr ⟨Or.inl rfl, hq⟩
          · exact Or.inl hs
          · exact Or.inr ⟨Or.inr ht.1, ht.2⟩
        · rintro (hs | ⟨rfl | ht, hp⟩)
          · exact Or.inl (Or.inr hs)
          · rw [hq] at hp
            cases hp
            exact Or.inl (Or.inl rfl)
          · exact Or.inr ⟨ht, hp⟩
      · simp only [scan_port, if_neg hc, List.mem_cons]
        constructor
        · rintro (hs | ht)
          · exact Or.inl hs
          · exact Or.inr ⟨Or.inr ht.1, ht.2⟩
        · rintro (hs | ⟨rfl | ht, hp⟩)
          · exact Or.inl hs
          · rw [hq] at hp
            cases hp
            exact absurd rfl hc
          · exact Or.inr ⟨ht, hp⟩
    | raised =>
      simp only [scan_port, List.mem_cons]
      constructor
      · rintro (hs | ht)
        · exact Or.inl hs
        · exact Or.inr ⟨Or.inr ht.1, ht.2⟩
      · rintro (hs | ⟨rfl | ht, hp⟩)
        · exact Or.inl hs
        · rw [hq] at hp
          cases hp
        · exact Or.inr ⟨ht, hp⟩

/-! ## The batch structure of the dispatch loop -/

theorem batchLoop_spec (limit : Nat) (ps : List Int) :
    ∀ cur : List Int, cur.length < limit →
      (∀ b ∈ batchLoop limit cur ps, b.length ≤ limit) ∧
      (batchLoop limit cur ps).flatten = cur.reverse ++ ps := by
  induction ps with
  | nil =>
    intro cur hcur
    unfold batchLoop
    by_cases h : cur.isEmpty
    · rw [if_pos h]
      rw [List.isEmpty_iff] at h
      subst h
      exact ⟨fun b hb => absurd hb (List.not_mem_nil b), rfl⟩
    · rw [if_neg h]
      refine ⟨?_, by simp⟩
      intro b hb
      rcases List.mem_singleton.mp hb with rfl
      simpa using Nat.le_of_lt hcur
  | cons p ps ih =>
    intro cur hcur
    unfold batchLoop
    by_cases h : limit ≤ (p :: cur).length
    · rw [if_pos h]
      have h0 : 0 < limit := Nat.lt_of_le_of_lt (Nat.zero_le _) hcur
      obtain ⟨hb, hj⟩ := ih [] (by simpa using h0)
      refine ⟨?_, ?_⟩
      · intro b hbm
        rcases List.mem_cons.mp hbm with rfl | hbm2
        · simpa using hcur
        · exact hb b hbm2
      · rw [List.flatten_cons, hj]
        simp
    · rw [if_neg h]
      obtain ⟨hb, hj⟩ := ih (p :: cur) (Nat.lt_of_not_le h)
      refine ⟨hb, ?_⟩
      rw [hj]
      simp

/-- Helper for C4/C10: every record the comparison loop emits carries the ip
    of some host of `current`. -/
theorem mem_compareLoop_ip (current : List ScanRecord)
    (m : List (Json × Finset Int)) (r : ChangeRecord)
    (hr : r ∈ compareLoop current m) :
    r.ip ∈ current.map (fun h => h.ip) := by
  rcases List.mem_filterMap.mp hr with ⟨host, hmem, hsome⟩
  rw [diffHost_eq] at hsome
  split at hsome
  · cases hsome
  · injection hsome with h
    subst h
    exact List.mem_map_of_mem (fun h => h.ip) hmem

/-- C1: for every current and baseline result set (one record per host, as the
    data model requires), `compare_with_baseline`'s loop computes exactly the
    spec's diff: per current host in order, `added = current − baseline` and
    `removed = baseline − current` with empty baseline ports for an absent
    host, one ChangeRecord iff `added` or `removed` is non-empty, and
    `detected_at` copied from the current host's record. -/
theorem compareLoop_matches_spec_diff (current baseline : List ScanRecord)
    (hnd : (baseline.map (fun h => h.ip)).Nodup) :
    compareLoop current (oldMapOfRecords baseline) = specDiff current baseline := by
  unfold compareLoop specDiff
  congr 1
  funext host
  rw [diffHost_eq, oldMapGet_eq_specBaselinePorts baseline host.ip hnd]

/-- Witness for C1 at the spec's own scenario: baseline `10.0.0.5 : [22,80]`,
    current `10.0.0.5 : [22,8080]` yields `added [8080], removed [80]`. -/
theorem compareLoop_matches_spec_diff_witness :
    (([{ ip := "10.0.0.5", open_ports := [22, 80], scanned_at := "t0" }] :
        List ScanRecord).map (fun h => h.ip)).Nodup ∧
    compareLoop [{ ip := "10.0.0.5", open_ports := [22, 8080], scanned_at := "t1" }]
        (oldMapOfRecords [{ ip := "10.0.0.5", open_ports := [22, 80], scanned_at := "t0" }]) =
      specDiff [{ ip := "10.0.0.5", open_ports := [22, 8080], scanned_at := "t1" }]
        [{ ip := "10.0.0.5", open_ports := [22, 80], scanned_at := "t0" }] ∧
    specDiff [{ ip := "10.0.0.5", open_ports := [22, 8080], scanned_at := "t1" }]
        [{ ip := "10.0.0.5", open_ports := [22, 80], scanned_at := "t0" }] =
      [{ ip := "10.0.0.5", added_ports := [8080], removed_ports := [80],
         detected_at := "t1" }] :=
  ⟨by decide, compareLoop_matches_spec_diff _ _ (by decide), by decide⟩

/-- C4: a host present in the baseline but absent from the current result set
    produces no ChangeRecord (the loop walks `current` only). -/
theorem baseline_only_host_not_reported (current baseline : List ScanRecord)
    (ip : String) (_hbase : ip ∈ baseline.map (fun h => h.ip))
    (hcur : ip ∉ current.map (fun h => h.ip)) (r : ChangeRecord)
    (hr : r ∈ compareLoop current (oldMapOfRecords baseline)) :
    r.ip ≠ ip :=
  fun he => hcur (he ▸ mem_compareLoop_ip current _ r hr)

/-- Witness for C4: the vanished baseline host `10.0.0.9` names no emitted
    record at a concrete input. -/
theorem baseline_only_host_not_reported_witness :
    ("10.0.0.9" ∈ ([{ ip := "10.0.0.9", open_ports := [22], scanned_at := "t0" }] :
        List ScanRecord).map (fun h => h.ip)) ∧
    ("10.0.0.9" ∉ ([{ ip := "10.0.0.5", open_ports := [22], scanned_at := "t1" }] :
        List ScanRecord).map (fun h => h.ip)) ∧
    (({ ip := "10.0.0.5", added_ports := [22], removed_ports := [],
        detected_at := "t1" } : ChangeRecord) ∈
      compareLoop [{ ip := "10.0.0.5", open_ports := [22], scanned_at := "t1" }]
        (oldMapOfRecords [{ ip := "10.0.0.9", open_ports := [22], scanned_at := "t0" }])) ∧
    ({ ip := "10.0.0.5", added_ports := [22], removed_ports := [],
       detected_at := "t1" } : ChangeRecord).ip ≠ "10.0.0.9" :=
  ⟨by decide, by decide, by decide,
    baseline_only_host_not_reported
      [{ ip := "10.0.0.5", open_ports := [22], scanned_at := "t1" }]
      [{ ip := "10.0.0.9", open_ports := [22], scanned_at := "t0" }]
      "10.0.0.9" (by decide) (by decide)
      { ip := "10.0.0.5", added_ports := [22], removed_ports := [],
        detected_at := "t1" } (by decide)⟩

/-- C5: diffing a result set (one record per host) against itself yields the
    empty ChangeSet. -/
theorem diff_self_empty (r : List ScanRecord)
    (hnd : (r.map (fun h => h.ip)).Nodup) :
    compareLoop r (oldMapOfRecords r) = [] := by
  unfold compareLoop
  rw [List.filterMap_eq_nil_iff]
  intro host hmem
  rw [diffHost_eq, oldMapGet_eq_specBaselinePorts r host.ip hnd,
    specBaselinePorts_self r host hmem hnd]
  simp

/-- Witness for C5 at a concrete two-host result set. -/
theorem diff_self_empty_witness :
    (([{ ip := "10.0.0.5", open_ports := [22, 80], scanned_at := "t0" },
       { ip := "10.0.0.7", open_ports := [443], scanned_at := "t0" }] :
        List ScanRecord).map (fun h => h.ip)).Nodup ∧
    compareLoop
        [{ ip := "10.0.0.5", open_ports := [22, 80], scanned_at := "t0" },
         { ip := "10.0.0.7", open_ports := [443], scanned_at := "t0" }]
        (oldMapOfRecords
          [{ ip := "10.0.0.5", open_ports := [22, 80], scanned_at := "t0" },
           { ip := "10.0.0.7", open_ports := [443], scanned_at := "t0" }]) = [] :=
  ⟨by decide, diff_self_empty _ (by decide)⟩

/-- C9: with no `--baseline` argument (absent or the empty string, both falsy
    in Python), the comparison returns the empty ChangeSet without failing. -/
theorem no_baseline_empty_changeset (current : List ScanRecord)
    (loadBaseline : String → Option Json) :
    compare_with_baseline current none loadBaseline = .ok [] ∧
    compare_with_baseline current (some "") loadBaseline = .ok [] :=
  ⟨rfl, rfl⟩

/-- C10: in every emitted ChangeRecord, `added_ports` and `removed_ports` are
    disjoint: they are the two opposite set differences of the same pair of
    sets. -/
theorem added_removed_disjoint (current : List ScanRecord)
    (m : List (Json × Finset Int)) (r : ChangeRecord)
    (hr : r ∈ compareLoop current m) (p : Int) (hp : p ∈ r.added_ports) :
    p ∉ r.removed_ports := by
  rcases List.mem_filterMap.mp hr with ⟨host, hmem, hsome⟩
  rw [diffHost_eq] at hsome
  split at hsome
  · cases hsome
  · injection hsome with h
    have hadd : r.added_ports =
        sortFinset (host.open_ports.toFinset \ oldMapGet m host.ip) := by
      rw [← h]
    have hrem : r.removed_ports =
        sortFinset (oldMapGet m host.ip \ host.open_ports.toFinset) := by
      rw [← h]
    rw [hadd, mem_sortFinset] at hp
    rw [hrem, mem_sortFinset]
    intro hc
    exact (Finset.mem_sdiff.mp hp).2 (Finset.mem_sdiff.mp hc).1

/-- Witness for C10 at the spec's scenario record. -/
theorem added_removed_disjoint_witness :
    (({ ip := "10.0.0.5", added_ports := [8080], removed_ports := [80],
        detected_at := "t1" } : ChangeRecord) ∈
      compareLoop [{ ip := "10.0.0.5", open_ports := [22, 8080], scanned_at := "t1" }]
        (oldMapOfRecords [{ ip := "10.0.0.5", open_ports := [22, 80], scanned_at := "t0" }])) ∧
    ((8080 : Int) ∈ ({ ip := "10.0.0.5", added_ports := [8080], removed_ports := [80], detected_at := "t1" } : ChangeRecord).added_ports) ∧
    (8080 : Int) ∉ ({ ip := "10.0.0.5", added_ports := [8080], removed_ports := [80], detected_at := "t1" } : ChangeRecord).removed_ports :=
  ⟨by decide, by decide,
    added_removed_disjoint
      [{ ip := "10.0.0.5", open_ports := [22, 8080], scanned_at := "t1" }]
      (oldMapOfRecords [{ ip := "10.0.0.5", open_ports := [22, 80], scanned_at := "t0" }])
      { ip := "10.0.0.5", added_ports := [8080], removed_ports := [80], detected_at := "t1" }
      (by decide) 8080 (by decide)⟩

/-! ## Reading back a persisted result set -/

theorem mapExcept_portEntry_num (l : List Int) :
    mapExcept portEntry (l.map Json.num) = .ok l := by
  induction l with
  | nil => rfl
  | cons n t ih =>
    rw [List.map_cons]
    show (do
      let b ← portEntry (Json.num n)
      let bs ← mapExcept portEntry (t.map Json.num)
      Except.ok (b :: bs)) = _
    rw [ih]
    rfl

theorem oldMapEntry_encodeRecord (r : ScanRecord) :
    oldMapEntry (encodeRecord r) = .ok (Json.str r.ip, r.open_ports.toFinset) := by
  show (do
    let k ← getItem (encodeRecord r) "ip"
    let ps ← getItem (encodeRecord r) "open_ports"
    let s ← extractPortSet ps
    Except.ok (k, s)) = _
  rw [show getItem (encodeRecord r) "ip" = .ok (Json.str r.ip) from rfl,
    show getItem (encodeRecord r) "open_ports" =
      .ok (Json.arr (r.open_ports.map Json.num)) from rfl]
  show (do
    let s ← extractPortSet (Json.arr (r.open_ports.map Json.num))
    Except.ok (Json.str r.ip, s)) = _
  rw [show extractPortSet (Json.arr (r.open_ports.map Json.num)) =
      (do
        let ns ← mapExcept portEntry (r.open_ports.map Json.num)
        Except.ok ns.toFinset) from rfl,
    mapExcept_portEntry_num]
  rfl

/-- A baseline file that is a persisted result set parses into exactly the
    association list `oldMapOfRecords` used by the diff theorems. -/
theorem buildOldMap_encodeResults (rs : List ScanRecord) :
    buildOldMap (encodeResults rs) = .ok (oldMapOfRecords rs) := by
  show mapExcept oldMapEntry (rs.map encodeRecord) = _
  induction rs with
  | nil => rfl
  | cons r t ih =>
    rw [List.map_cons]
    show (do
      let b ← oldMapEntry (encodeRecord r)
      let bs ← mapExcept oldMapEntry (t.map encodeRecord)
      Except.ok (b :: bs)) = _
    rw [oldMapEntry_encodeRecord, ih]
    rfl

/-! ## Discovery is non-empty on non-empty input -/

theorem discover_hosts_perm (answered : List String) :
    (discover_hosts answered).Perm answered :=
  List.perm_insertionSort pyLe answered

theorem discover_hosts_isEmpty_false (answered : List String)
    (h : answered ≠ []) :
    (discover_hosts answered).isEmpty = false := by
  rcases hd : discover_hosts answered with _ | ⟨a, t⟩
  · exfalso
    have hperm := discover_hosts_perm answered
    rw [hd] at hperm
    exact h (hperm.symm.eq_nil)
  · rfl

/-! ## Claims C2, C3, C6, C7, C8 -/

/-- Counterexample to C2 as stated: with ARP replies from `192.168.1.9` and
    `192.168.1.10`, the produced result set is ordered `.10` before `.9`
    (string order), which is *not* ascending by numeric IPv4 value. -/
theorem scanResults_not_numeric_sorted :
    ¬ List.Sorted ipNumLe
        ((scanResults (discover_hosts ["192.168.1.9", "192.168.1.10"]) [22]
            (fun _ _ => .raised) (fun _ => "t")).map (fun r => r.ip)) := by
  decide

/-- C2 amended: the result set is ordered ascending by the host address
    *string* (lexicographic by code point), one record per discovered host,
    and the outcome is independent of the order in which hosts answered. -/
theorem scanResults_sorted_lexicographic (answered answered2 : List String)
    (ports : List Int) (probe : String → Int → ProbeOutcome)
    (now : String → String) (hperm : answered.Perm answered2) :
    List.Sorted pyLe
      ((scanResults (discover_hosts answered) ports probe now).map (fun r => r.ip)) ∧
    scanResults (discover_hosts answered) ports probe now =
      scanResults (discover_hosts answered2) ports probe now := by
  have hmap : ∀ l : List String,
      (scanResults l ports probe now).map (fun r => r.ip) = l := by
    intro l
    rw [scanResults, List.map_map]
    exact List.map_id l
  constructor
  · rw [hmap]
    exact List.sorted_insertionSort pyLe answered
  · have hde : discover_hosts answered = discover_hosts answered2 := by
      apply List.eq_of_perm_of_sorted (r := pyLe)
      · exact (discover_hosts_perm answered).trans
          (hperm.trans (discover_hosts_perm answered2).symm)
      · exact List.sorted_insertionSort pyLe answered
      · exact List.sorted_insertionSort pyLe answered2
    rw [hde]

/-- Witness for the amended C2 at a concrete pair of arrival orders. -/
theorem scanResults_sorted_lexicographic_witness :
    (["10.0.0.7", "10.0.0.5"] : List String).Perm ["10.0.0.5", "10.0.0.7"] ∧
    List.Sorted pyLe
      ((scanResults (discover_hosts ["10.0.0.7", "10.0.0.5"]) [22]
          (fun _ _ => .raised) (fun _ => "t")).map (fun r => r.ip)) ∧
    scanResults (discover_hosts ["10.0.0.7", "10.0.0.5"]) [22]
        (fun _ _ => .raised) (fun _ => "t") =
      scanResults (discover_hosts ["10.0.0.5", "10.0.0.7"]) [22]
        (fun _ _ => .raised) (fun _ => "t") :=
  ⟨by decide,
    (scanResults_sorted_lexicographic ["10.0.0.7", "10.0.0.5"]
      ["10.0.0.5", "10.0.0.7"] [22] (fun _ _ => .raised) (fun _ => "t")
      (by decide)).1,
    (scanResults_sorted_lexicographic ["10.0.0.7", "10.0.0.5"]
      ["10.0.0.5", "10.0.0.7"] [22] (fun _ _ => .raised) (fun _ => "t")
      (by decide)).2⟩

/-- Counterexample to C3 as stated: a baseline that decodes as JSON but does
    not have the expected shape (here `[[]]`, a list containing a list) makes
    the dictionary comprehension raise an uncaught `TypeError` — the
    comparison is *not* skipped with an empty ChangeSet. -/
theorem bad_shape_baseline_raises :
    compare_with_baseline
        [{ ip := "10.0.0.5", open_ports := [22], scanned_at := "t1" }]
        (some "baseline.json") (fun _ => some (Json.arr [Json.arr []])) =
      .error "TypeError: list indices must be integers" ∧
    compare_with_baseline
        [{ ip := "10.0.0.5", open_ports := [22], scanned_at := "t1" }]
        (some "baseline.json") (fun _ => some (Json.arr [Json.arr []])) ≠
      .ok [] := by
  refine ⟨rfl, fun hc => ?_⟩
  rw [show compare_with_baseline
        [{ ip := "10.0.0.5", open_ports := [22], scanned_at := "t1" }]
        (some "baseline.json") (fun _ => some (Json.arr [Json.arr []])) =
      .error "TypeError: list indices must be integers" from rfl] at hc
  exact Except.noConfusion hc

/-- C3 amended: when the baseline file cannot be opened or is not valid JSON
    (both land in the bare `except:`), the comparison is skipped — the run
    completes with the unchanged current result set and an empty ChangeSet.
    (A baseline that decodes as JSON but has the wrong shape instead raises
    after the results were saved; see the counterexample.) -/
theorem unreadable_baseline_skipped_scan_saved (answered : List String)
    (ports : List Int) (probe : String → Int → ProbeOutcome)
    (now : String → String) (p : String) (loadBaseline : String → Option Json)
    (hload : loadBaseline p = none) (hne : answered ≠ []) :
    mainRun answered ports probe now (some p) loadBaseline =
      .completed (scanResults (discover_hosts answered) ports probe now) [] := by
  have hie := discover_hosts_isEmpty_false answered hne
  by_cases hp : p = ""
  · subst hp
    simp [mainRun, hie, compare_with_baseline]
  · simp [mainRun, hie, compare_with_baseline, hp, hload]

/-- Witness for the amended C3. -/
theorem unreadable_baseline_skipped_scan_saved_witness :
    ((fun _ : String => (none : Option Json)) "b.json" = none) ∧
    (["10.0.0.5"] : List String) ≠ [] ∧
    mainRun ["10.0.0.5"] [22] (fun _ _ => .raised) (fun _ => "t")
        (some "b.json") (fun _ => none) =
      .completed (scanResults (discover_hosts ["10.0.0.5"]) [22]
        (fun _ _ => .raised) (fun _ => "t")) [] :=
  ⟨rfl, by decide,
    unreadable_baseline_skipped_scan_saved ["10.0.0.5"] [22]
      (fun _ _ => .raised) (fun _ => "t") "b.json" (fun _ => none)
      rfl (by decide)⟩

/-- C6: the dispatch loop of `scan_host_ports` partitions the port list into
    consecutive batches, every batch holding at most `THREADS` attempts, and
    the batches together attempt exactly all the ports in order.  Each batch
    is fully joined before the next thread starts, so the attempts in flight
    at any instant all belong to one batch: never more than `THREADS`
    concurrently. -/
theorem probe_batches_bounded_and_exhaustive (ports : List Int) :
    (∀ b ∈ scanBatches ports, b.length ≤ THREADS) ∧
    (scanBatches ports).flatten = ports := by
  have h := batchLoop_spec THREADS ports [] (by decide)
  refine ⟨h.1, ?_⟩
  show (batchLoop THREADS [] ports).flatten = ports
  rw [h.2]
  rfl

/-- Witness for C6 at the default port list (one batch of six ≤ 100). -/
theorem probe_batches_bounded_and_exhaustive_witness :
    ([22, 80, 443, 3306, 8080, 8443] : List Int).length ≤ THREADS ∧
    (scanBatches [22, 80, 443, 3306, 8080, 8443]).flatten =
      [22, 80, 443, 3306, 8080, 8443] :=
  ⟨(probe_batches_bounded_and_exhaustive [22, 80, 443, 3306, 8080, 8443]).1
      [22, 80, 443, 3306, 8080, 8443] (by decide),
    (probe_batches_bounded_and_exhaustive [22, 80, 443, 3306, 8080, 8443]).2⟩

/-- C7: a port appears in the open-port list of a host's record exactly when
    it was probed and its single `connect_ex` attempt returned `0`.  In
    particular a timeout, refusal, or raised transport error (any non-zero
    indicator or exception) classifies the port closed, surfaces no error,
    and leaves every other port's result untouched. -/
theorem failed_attempt_port_closed (ip : String) (ports : List Int)
    (probe : Int → ProbeOutcome) (now : String) (p : Int) :
    p ∈ (scan_host_ports ip ports probe now).open_ports ↔
      p ∈ ports ∧ probe p = .result 0 := by
  show p ∈ sortFinset (gatherOpen probe ports) ↔ _
  rw [mem_sortFinset]
  unfold gatherOpen
  rw [mem_foldl_scan_port]
  simp

/-- C8: when discovery yields zero responding hosts, `main` takes the
    early-return branch: no exception, no result records, and the advisory
    `noHosts` outcome, distinguishable by construction from `completed` and
    from `crashedAfterSave`. -/
theorem zero_hosts_nonfatal (answered : List String) (ports : List Int)
    (probe : String → Int → ProbeOutcome) (now : String → String)
    (baseline_path : Option String) (loadBaseline : String → Option Json)
    (h : discover_hosts answered = []) :
    mainRun answered ports probe now baseline_path loadBaseline = .noHosts := by
  simp [mainRun, h]

/-- Witness for C8 at an empty address space. -/
theorem zero_hosts_nonfatal_witness :
    discover_hosts [] = [] ∧
    mainRun [] [22] (fun _ _ => .raised) (fun _ => "t") none (fun _ => none) =
      .noHosts :=
  ⟨rfl, zero_hosts_nonfatal [] [22] (fun _ _ => .raised) (fun _ => "t")
    none (fun _ => none) rfl⟩

end NetScanner
